import Mathlib

/-!
Verification development for the Pizza42 ordering backend.

The definitions below are a shallow embedding of `src/backend/server.js`
(three server variants: the profile-embedded storage variant, the DynamoDB
table-storage variant, and the minimal variant) and of the shared helper
functions that also appear in `src/auth0-action.js`.

Modelling conventions:
- JavaScript strings are `String` (or `List Char` where substring / lexicographic
  structure matters); `undefined` fields are `Option`; JS truthiness of a value
  is modelled by explicit predicates (`obTruthy`, `jsTruthyStr`, `jsTruthyNum`).
- JS numbers holding money amounts are `Rat`; epoch-millisecond timestamps are
  `Nat` (cast to `Int` where the code subtracts dates).
- The Auth0 Management API store (one `user_metadata` record per user id) is a
  function `String → UserMeta`; the DynamoDB table is a `List DynamoItem`.
- Handlers are total functions returning a result, the updated store, and a
  trace of store operations performed (used to state "no store access" facts).
-/

/-! ## Character-list utilities (JS string operations) -/

/-- `startsWithChars s p`: `s` starts with `p` (helper for substring search). -/
def startsWithChars : List Char → List Char → Bool
  | _, [] => true
  | [], _ :: _ => false
  | c :: cs, d :: ds => c == d && startsWithChars cs ds

/-- `containsSub s sub`: JS `s.includes(sub)` — `sub` occurs as a contiguous
substring of `s`. -/
def containsSub : List Char → List Char → Bool
  | [], sub => sub.isEmpty
  | c :: cs, sub => startsWithChars (c :: cs) sub || containsSub cs sub

/-- JS `s.split(' ')`: the space-separated tokens of `s` (empty tokens kept,
as JS does). -/
def spaceTokens : List Char → List (List Char)
  | [] => [[]]
  | c :: cs =>
    if c = ' ' then [] :: spaceTokens cs
    else
      match spaceTokens cs with
      | [] => [[c]]
      | t :: ts => (c :: t) :: ts

/-- Strict lexicographic comparison of character lists by code point — the
order DynamoDB uses for `String` sort keys (UTF-8 byte order; identical to
code-point order on the ASCII data produced here). -/
def lexLt : List Char → List Char → Bool
  | [], [] => false
  | [], _ :: _ => true
  | _ :: _, [] => false
  | a :: as, b :: bs => if a < b then true else if b < a then false else lexLt as bs

/-- Fuel-driven core of `natDigits` (structural recursion so that concrete
values reduce in the kernel). -/
def natDigitsAux : Nat → Nat → List Char
  | 0, _ => []
  | fuel + 1, n =>
    if n < 10 then [Nat.digitChar n]
    else natDigitsAux fuel (n / 10) ++ [Nat.digitChar (n % 10)]

/-- Decimal digit characters of `n` — JS `n.toString()` for a natural. -/
def natDigits (n : Nat) : List Char := natDigitsAux (n + 1) n

/-- JS `n.toString()` as a `String`. -/
def natStr (n : Nat) : String := String.mk (natDigits n)

/-! ## Token verification (`verifyToken`, src/backend/server.js lines 36–78) -/

/-- The JWT `aud` claim: a single audience string or an array of them. -/
inductive AudClaim where
  | single (s : String)
  | multi (l : List String)
deriving DecidableEq

/-- Token classification produced by `verifyToken`. -/
inductive TokenType where
  | access_token
  | id_token
deriving DecidableEq

/-- The classification step of `verifyToken` (server.js lines 64–66):
`Array.isArray(payload.aud) ? (payload.aud.includes(AUDIENCE) ? 'access_token'
: 'id_token') : (payload.aud === AUDIENCE ? 'access_token' : 'id_token')`. -/
def classifyAud (aud : AudClaim) (audience : String) : TokenType :=
  match aud with
  | .multi l => if l.contains audience then .access_token else .id_token
  | .single s => if s = audience then .access_token else .id_token

/-- The audience check performed by `jwt.verify` with
`audience: [AUTH0_AUDIENCE, AUTH0_CLIENT_ID]` (server.js line 57): the `aud`
claim, or some member of it, equals one of the two expected values. -/
def audAccepted (aud : AudClaim) (audience clientId : String) : Prop :=
  match aud with
  | .single s => s = audience ∨ s = clientId
  | .multi l => ∃ x ∈ l, x = audience ∨ x = clientId

/-- Spec-side predicate: the `aud` claim (or, for an array, some member of it)
equals the protected-resource identifier. -/
def audHasAudience (aud : AudClaim) (audience : String) : Prop :=
  match aud with
  | .single s => s = audience
  | .multi l => audience ∈ l

/-! ## Claims-trust middleware (`verifyIdTokenClaims`, server.js lines 84–147) -/

/-- The token claims relevant to the middleware chain. Namespaced claims
(`https://pizza42.com/...`) injected by the post-login action are the
`ns...` fields; `tokenVerifiedAt` is the parsed namespaced
`token_verified_at` timestamp (epoch ms), `none` when the claim is absent. -/
structure TokenClaims where
  sub : String
  email : Option String
  aud : AudClaim
  scope : Option (List Char)
  rawEmailVerified : Option Bool
  tokenVerifiedAt : Option Nat
  nsEmailVerified : Option Bool
  nsCanPlaceOrders : Option Bool
deriving DecidableEq

/-- The `req.idTokenVerification` object built by `verifyIdTokenClaims`.
`emailVerified`/`canPlaceOrders` are `Option Bool` because in the trusted
branch the code copies the namespaced claims as-is, which may be absent. -/
structure Verification where
  verified : Bool
  verifiedAt : Option Nat
  emailVerified : Option Bool
  canPlaceOrders : Option Bool
deriving DecidableEq

/-- JS truthiness of an optional boolean: only `true` is truthy. -/
def obTruthy : Option Bool → Bool
  | some true => true
  | _ => false

/-- `verifyIdTokenClaims` (server.js lines 84–147): if the namespaced
`token_verified_at` claim is present, trust the namespaced flags and attach a
staleness warning when the verification is more than one hour old
(`(now - verifiedTime) / 3600000 > 1`); otherwise fall back to the raw
`email_verified` claim (`user.email_verified || false`) with
`verified: false`. The middleware always passes control onward (`next()`),
so it is a total function returning the verification object and the
warning list it appends to `req.verificationWarnings`. -/
def verifyIdTokenClaims (claims : TokenClaims) (now : Nat) :
    Verification × List String :=
  match claims.tokenVerifiedAt with
  | some t =>
    let warns := if (now : Int) - (t : Int) > 3600000 then
        ["Token verification is stale"] else []
    ({ verified := true, verifiedAt := some t,
       emailVerified := claims.nsEmailVerified,
       canPlaceOrders := claims.nsCanPlaceOrders }, warns)
  | none =>
    ({ verified := false, verifiedAt := none,
       emailVerified := some (claims.rawEmailVerified.getD false),
       canPlaceOrders := some (claims.rawEmailVerified.getD false) }, [])

/-! ## Authorization gates (server.js lines 153–200) -/

/-- `requireEmailVerification` (server.js lines 153–189): returns
`some errorMessage` when it responds 403, `none` when it calls `next()`.
The three 403 branches are: no verification object, falsy `emailVerified`,
falsy `canPlaceOrders`. -/
def requireEmailVerification (v : Option Verification) : Option String :=
  match v with
  | none => some "Email verification status unknown"
  | some vr =>
    if !obTruthy vr.emailVerified then some "Email verification required"
    else if !obTruthy vr.canPlaceOrders then some "Order access restricted"
    else none

/-- `requireScope` (server.js lines 192–200): the gate passes iff the scope
claim is a truthy (non-empty) string and `scope.includes(requiredScope)` —
a JS substring test, not a match against the space-separated permission
list. Returns `true` when the gate passes. -/
def requireScopeCheck (required : List Char) (scope : Option (List Char)) : Bool :=
  match scope with
  | none => false
  | some s => !s.isEmpty && containsSub s required

/-- The required permission for order placement, `'place:orders'`. -/
def placeOrdersChars : List Char := "place:orders".toList

/-! ## POST /api/orders, profile-embedded storage variant
(server.js lines 256–313) -/

/-- The parsed request body `{ pizza, size, total, date }`; absent fields are
`none`. -/
structure OrderBody where
  pizza : Option String
  size : Option String
  total : Option Rat
  date : Option String
deriving DecidableEq

/-- JS truthiness of an optional string (`undefined` and `''` are falsy). -/
def jsTruthyStr : Option String → Bool
  | none => false
  | some s => !s.isEmpty

/-- JS truthiness of an optional number (`undefined` and `0` are falsy). -/
def jsTruthyNum : Option Rat → Bool
  | none => false
  | some q => decide (q ≠ 0)

/-- An order as stored in the user's profile metadata (server.js lines
266–273): `{ id: Date.now().toString(), pizza, size, total, date: date ||
new Date().toISOString(), userId }`. -/
structure StoredOrder where
  id : String
  pizza : String
  size : String
  total : Rat
  date : String
  userId : String
deriving DecidableEq

/-- A user's `user_metadata` record in the identity platform: the `orders`
list (absent for a fresh user) plus all other metadata fields, which the
spread `{...user.user_metadata, orders: ...}` must preserve. -/
structure UserMeta where
  orders : Option (List StoredOrder)
  other : List (String × String)
deriving DecidableEq

/-- Store operations performed against the Auth0 Management API, recorded in
order of execution. -/
inductive StoreOp where
  | getUser (u : String)
  | updateUser (u : String)
deriving DecidableEq

/-- Outcome of the POST /api/orders pipeline (after `verifyToken` succeeded):
`forbidden msg` is a 403 from a gate, `badRequest` the 400 validation
response, `ok order warnings` the success response (which echoes the created
order and, when non-empty, the accumulated verification warnings). -/
inductive OrdersResult where
  | forbidden (msg : String)
  | badRequest
  | ok (order : StoredOrder) (warnings : List String)
deriving DecidableEq

/-- Result of the profile-variant pipeline: HTTP-level result, the store
after the request, and the trace of store operations performed. -/
structure ProfileOut where
  res : OrdersResult
  store : String → UserMeta
  ops : List StoreOp

/-- The profile-variant POST /api/orders pipeline after `verifyToken`
(server.js line 256): `verifyIdTokenClaims`, `requireEmailVerification`,
`requireScope('place:orders')`, then the handler (lines 257–313), which
validates `{pizza, size, total}`, reads the user's profile, appends the new
order to `user_metadata.orders`, and writes the metadata back with all other
fields spread unchanged. `now` is the current epoch-ms time, `nowMs` the
`Date.now()` value used for the order id, `nowIso` the
`new Date().toISOString()` default date. -/
def postOrdersProfile (claims : TokenClaims) (body : OrderBody)
    (now nowMs : Nat) (nowIso : String) (store : String → UserMeta) :
    ProfileOut :=
  let v := (verifyIdTokenClaims claims now).1
  let warns := (verifyIdTokenClaims claims now).2
  match requireEmailVerification (some v) with
  | some msg => { res := .forbidden msg, store := store, ops := [] }
  | none =>
    if !requireScopeCheck placeOrdersChars claims.scope then
      { res := .forbidden "Insufficient scope", store := store, ops := [] }
    else if !(jsTruthyStr body.pizza && jsTruthyStr body.size
        && jsTruthyNum body.total) then
      { res := .badRequest, store := store, ops := [] }
    else
      let order : StoredOrder :=
        { id := natStr nowMs,
          pizza := body.pizza.getD "",
          size := body.size.getD "",
          total := body.total.getD 0,
          date := body.date.getD nowIso,
          userId := claims.sub }
      let user := store claims.sub
      let currentOrders := user.orders.getD []
      let updatedOrders := currentOrders ++ [order]
      let store' := fun u =>
        if u = claims.sub then
          { orders := some updatedOrders, other := user.other }
        else store u
      { res := .ok order warns, store := store',
        ops := [.getUser claims.sub, .updateUser claims.sub] }

/-! ## DynamoDB table-storage variant (server.js lines 698–827) -/

/-- A row of the orders table (server.js lines 711–720): keyed by
`(user_id, order_id)` with `order_id = 'order_' + Date.now()`. -/
structure DynamoItem where
  user_id : String
  order_id : List Char
  pizza : String
  size : String
  total : Rat
  created_at : String
  user_email : Option String
  status : String
deriving DecidableEq

/-- The `order_${Date.now()}` sort key (server.js line 708). -/
def orderIdChars (t : Nat) : List Char := "order_".toList ++ natDigits t

/-- The item the handler builds for a placement at `Date.now() = nowMs`
(server.js lines 707–720). -/
def mkDynamoItem (sub : String) (email : Option String) (nowMs : Nat)
    (body : OrderBody) (nowIso : String) : DynamoItem :=
  { user_id := sub,
    order_id := orderIdChars nowMs,
    pizza := body.pizza.getD "",
    size := body.size.getD "",
    total := body.total.getD 0,
    created_at := body.date.getD nowIso,
    user_email := email,
    status := "confirmed" }

/-- DynamoDB `PutItem` over the table contract of §6 of the spec: the item
replaces any existing item with the same `(user_id, order_id)` key. -/
def dynamoPut (it : DynamoItem) (tbl : List DynamoItem) : List DynamoItem :=
  it :: tbl.filter (fun x =>
    !(x.user_id == it.user_id && x.order_id == it.order_id))

/-- Insertion step for the descending sort: keep items with a greater sort
key in front. -/
def insertDesc (it : DynamoItem) : List DynamoItem → List DynamoItem
  | [] => [it]
  | x :: xs =>
    if lexLt it.order_id x.order_id then x :: insertDesc it xs
    else it :: x :: xs

/-- Descending sort by `order_id` — the order a DynamoDB `Query` with
`ScanIndexForward: false` returns items of a partition (string sort keys
compare in byte order). -/
def sortDesc : List DynamoItem → List DynamoItem
  | [] => []
  | x :: xs => insertDesc x (sortDesc xs)

/-- The `Query` of GET /api/orders (server.js lines 778–788): the user's
partition, newest sort key first. -/
def dynamoQueryDesc (u : String) (tbl : List DynamoItem) : List DynamoItem :=
  sortDesc (tbl.filter (fun x => x.user_id == u))

/-- The frontend-facing order shape the GET handler maps each item to
(server.js lines 793–800). -/
structure FormattedOrder where
  id : List Char
  pizza : String
  size : String
  total : Rat
  date : String
  userId : String
deriving DecidableEq

/-- `formattedOrders` mapping (server.js lines 793–800). -/
def fmtOrder (it : DynamoItem) : FormattedOrder :=
  { id := it.order_id, pizza := it.pizza, size := it.size,
    total := it.total, date := it.created_at, userId := it.user_id }

/-- GET /api/orders listing under the table strategy: query the user's
partition descending and format each row. -/
def dynamoListOrders (u : String) (tbl : List DynamoItem) :
    List FormattedOrder :=
  (dynamoQueryDesc u tbl).map fmtOrder

/-- Outcome of the DynamoDB-variant POST /api/orders pipeline. -/
inductive DynamoResult where
  | forbidden (msg : String)
  | badRequest
  | ok (item : DynamoItem) (warnings : List String)
deriving DecidableEq

/-- Result of the DynamoDB-variant pipeline: HTTP-level result, the table
after the request, and the keys of `PutItem` calls performed. -/
structure DynamoOut where
  res : DynamoResult
  table : List DynamoItem
  ops : List (String × List Char)

/-- The DynamoDB-variant POST /api/orders pipeline after `verifyToken`
(server.js line 698): same middleware chain, then the handler (lines
699–769) which validates `{pizza, size, total}` and performs a single
`PutItem` keyed `(user_id, order_id)`. -/
def postOrdersDynamo (claims : TokenClaims) (body : OrderBody)
    (now nowMs : Nat) (nowIso : String) (tbl : List DynamoItem) :
    DynamoOut :=
  let v := (verifyIdTokenClaims claims now).1
  let warns := (verifyIdTokenClaims claims now).2
  match requireEmailVerification (some v) with
  | some msg => { res := .forbidden msg, table := tbl, ops := [] }
  | none =>
    if !requireScopeCheck placeOrdersChars claims.scope then
      { res := .forbidden "Insufficient scope", table := tbl, ops := [] }
    else if !(jsTruthyStr body.pizza && jsTruthyStr body.size
        && jsTruthyNum body.total) then
      { res := .badRequest, table := tbl, ops := [] }
    else
      let item := mkDynamoItem claims.sub claims.email nowMs body nowIso
      { res := .ok item warns, table := dynamoPut item tbl,
        ops := [(item.user_id, item.order_id)] }

/-! ## Statistics helper `getMostFrequent`
(server.js lines 446–464; identical copies in src/auth0-action.js lines
153–171 and 559–577) -/

/-- The loop state of `getMostFrequent`: the `frequency` object (a total
count function, 0 for unseen keys), `maxCount`, and `mostFrequent`. -/
structure MFState where
  freq : String → Nat
  maxCount : Nat
  most : Option String

/-- One iteration of the `arr.forEach` body: falsy (empty) items are skipped
(`if (item)`); otherwise the item's count is incremented and, when it
strictly exceeds `maxCount`, the item becomes the new `mostFrequent`. -/
def mfStep (st : MFState) (item : String) : MFState :=
  if item = "" then st
  else
    let f := fun x => if x = item then st.freq item + 1 else st.freq x
    if f item > st.maxCount then
      { freq := f, maxCount := f item, most := some item }
    else
      { freq := f, maxCount := st.maxCount, most := st.most }

/-- `getMostFrequent(arr)`: `null` for an empty array, else the fold of the
`forEach` loop. -/
def getMostFrequent (arr : List String) : Option String :=
  if arr.isEmpty then none
  else (arr.foldl mfStep ⟨fun _ => 0, 0, none⟩).most

/-- Number of occurrences of `v` in a list (spec-side count). -/
def cnt (v : String) : List String → Nat
  | [] => 0
  | x :: xs => (if x = v then 1 else 0) + cnt v xs

/-- `occPos l v k`: the index at which the `k`-th occurrence of `v` appears
in `l` (the position where `v`'s running count first reaches `k`), if it
exists. -/
def occPos : List String → String → Nat → Option Nat
  | [], _, _ => none
  | x :: xs, v, k =>
    if x = v then
      if k ≤ 1 then some 0
      else (occPos xs v (k - 1)).map (fun i => i + 1)
    else (occPos xs v k).map (fun i => i + 1)

/-! ## Customer-profile builders
(`generateCustomerProfileFromOrders`, server.js lines 395–439;
`generateCustomerProfile`, src/auth0-action.js lines 493–537) -/

/-- An order as consumed by the profile builders; `date` is the parsed
timestamp of the order's stored ISO string (epoch ms). -/
structure ProfileOrder where
  pizza : String
  size : String
  total : Rat
  date : Nat
deriving DecidableEq

/-- JS `Math.round(q * 100) / 100`. -/
def round2 (q : Rat) : Rat := (round (q * 100) : Int) / 100

/-- JS `Math.round(q * 1000) / 1000`. -/
def round3 (q : Rat) : Rat := (round (q * 1000) : Int) / 1000

/-- The profile produced by the backend builder. Fields that the empty-order
branch omits are `Option`. `customer_since` is `user.iat` (epoch seconds)
when present. -/
structure CustomerProfile where
  total_orders : Nat
  total_spent : Rat
  average_order_value : Option Rat
  favorite_size : Option String
  favorite_pizza : Option String
  customer_since : Option Nat
  first_order : Option Nat
  last_order : Option Nat
  order_frequency_per_day : Option Rat
deriving DecidableEq

/-- `generateCustomerProfileFromOrders(orders, user)` (server.js lines
395–439). The input is the DynamoDB-variant GET handler's `formattedOrders`
(newest first); `firstOrder` is taken from the LAST array position and
`lastOrder` from index 0 — fixed positions, not a min/max scan. -/
def generateCustomerProfileFromOrders :
    List ProfileOrder → Option Nat → CustomerProfile
  | [], userIat =>
    { total_orders := 0, total_spent := 0, average_order_value := none,
      favorite_size := none, favorite_pizza := none,
      customer_since := userIat, first_order := none, last_order := none,
      order_frequency_per_day := none }
  | o :: os, userIat =>
    let orders := o :: os
    let totalSpent := orders.foldl (fun s x => s + x.total) 0
    let favoriteSize := getMostFrequent (orders.map (fun x => x.size))
    let favoritePizza := getMostFrequent (orders.map (fun x => x.pizza))
    let avgOrderValue := totalSpent / (orders.length : Rat)
    let firstOrder := (orders.getLast (List.cons_ne_nil o os)).date
    let lastOrder := o.date
    let daysBetween : Rat :=
      max 1 (((lastOrder : Rat) - (firstOrder : Rat)) / 86400000)
    let orderFrequency := (orders.length : Rat) / daysBetween
    { total_orders := orders.length,
      total_spent := round2 totalSpent,
      average_order_value := some (round2 avgOrderValue),
      favorite_size := favoriteSize,
      favorite_pizza := favoritePizza,
      customer_since := userIat,
      first_order := some firstOrder,
      last_order := some lastOrder,
      order_frequency_per_day := some (round3 orderFrequency) }

/-- The profile produced by the post-login action's builder
(`customer_since` is the user's `created_at` string there). -/
structure ActionProfile where
  total_orders : Nat
  total_spent : Rat
  average_order_value : Option Rat
  favorite_size : Option String
  favorite_pizza : Option String
  customer_since : String
  first_order : Option Nat
  last_order : Option Nat
  order_frequency_per_day : Option Rat
deriving DecidableEq

/-- `generateCustomerProfile(orders, user)` (src/auth0-action.js lines
493–537): same aggregation, but `firstOrder` is index 0 and `lastOrder` the
LAST array position (the action sorts its input oldest-first upstream). -/
def generateCustomerProfile :
    List ProfileOrder → String → ActionProfile
  | [], createdAt =>
    { total_orders := 0, total_spent := 0, average_order_value := none,
      favorite_size := none, favorite_pizza := none,
      customer_since := createdAt, first_order := none, last_order := none,
      order_frequency_per_day := none }
  | o :: os, createdAt =>
    let orders := o :: os
    let totalSpent := orders.foldl (fun s x => s + x.total) 0
    let favoriteSize := getMostFrequent (orders.map (fun x => x.size))
    let favoritePizza := getMostFrequent (orders.map (fun x => x.pizza))
    let avgOrderValue := totalSpent / (orders.length : Rat)
    let firstOrder := o.date
    let lastOrder := (orders.getLast (List.cons_ne_nil o os)).date
    let daysBetween : Rat :=
      max 1 (((lastOrder : Rat) - (firstOrder : Rat)) / 86400000)
    let orderFrequency := (orders.length : Rat) / daysBetween
    { total_orders := orders.length,
      total_spent := round2 totalSpent,
      average_order_value := some (round2 avgOrderValue),
      favorite_size := favoriteSize,
      favorite_pizza := favoritePizza,
      customer_since := createdAt,
      first_order := some firstOrder,
      last_order := some lastOrder,
      order_frequency_per_day := some (round3 orderFrequency) }

/-- Minimum of the order dates (spec-side, for stating that `first_order`
is NOT this minimum on unsorted input). -/
def minDate : List ProfileOrder → Option Nat
  | [] => none
  | o :: os =>
    match minDate os with
    | none => some o.date
    | some m => some (min o.date m)

/-- Maximum of the order dates (spec-side). -/
def maxDate : List ProfileOrder → Option Nat
  | [] => none
  | o :: os =>
    match maxDate os with
    | none => some o.date
    | some m => some (max o.date m)

/-- Loop invariant of the `getMostFrequent` fold, relating the loop state to
the processed prefix `p`: the frequency map holds the prefix counts,
`maxCount` bounds every count, and `most` is the value that first reached
the current `maxCount` (witnessed by its occurrence position). -/
def MFInv (p : List String) (st : MFState) : Prop :=
  (∀ v, st.freq v = cnt v p) ∧
  (p = [] → st.maxCount = 0 ∧ st.most = none) ∧
  (∀ v, cnt v p ≤ st.maxCount) ∧
  (p ≠ [] → ∃ v i, st.most = some v ∧ cnt v p = st.maxCount ∧
    occPos p v st.maxCount = some i ∧
    ∀ w j, cnt w p = st.maxCount → occPos p w st.maxCount = some j → i ≤ j)

/-! ## Theorems -/

/-- C1: For every order-placement request whose claims-trust result has the
email-verified flag false, `requireEmailVerification` returns the 403
"Email verification required" response regardless of all other claims, and
the order handler is never reached: the store is unchanged and no store
operation occurs. -/
theorem c1_email_unverified_forbidden (claims : TokenClaims) (body : OrderBody)
    (now nowMs : Nat) (nowIso : String) (store : String → UserMeta)
    (h : (verifyIdTokenClaims claims now).1.emailVerified = some false) :
    postOrdersProfile claims body now nowMs nowIso store =
      { res := .forbidden "Email verification required",
        store := store, ops := [] } := by
  simp [postOrdersProfile, requireEmailVerification, h, obTruthy]

/-- Witness for C1 at a concrete token (trusted claims with
`email_verified = false`) and a concrete store. -/
theorem c1_email_unverified_forbidden_witness :
    postOrdersProfile
      { sub := "auth0|u1", email := some "u1@x.com", aud := .single "api",
        scope := some "place:orders".toList, rawEmailVerified := some true,
        tokenVerifiedAt := some 1000, nsEmailVerified := some false,
        nsCanPlaceOrders := some true }
      { pizza := some "Margherita", size := some "medium",
        total := some 17, date := none }
      2000 3000 "iso" (fun _ => { orders := none, other := [] }) =
      { res := .forbidden "Email verification required",
        store := fun _ => { orders := none, other := [] }, ops := [] } :=
  c1_email_unverified_forbidden _ _ _ _ _ _ (by decide)

/-- C2: For every token that passes the audience verification, `verifyToken`
classifies it as an access token exactly when its `aud` claim (or, for an
array, some member of it) equals the protected-resource identifier;
otherwise it is classified as an identity token. -/
theorem c2_classification (aud : AudClaim) (audience clientId : String)
    (hacc : audAccepted aud audience clientId) :
    (classifyAud aud audience = .access_token ↔ audHasAudience aud audience) ∧
    (¬ audHasAudience aud audience →
      classifyAud aud audience = .id_token) := by
  cases aud with
  | single s =>
    by_cases hs : s = audience <;>
      simp [classifyAud, audHasAudience, hs]
  | multi l =>
    by_cases hm : audience ∈ l <;>
      simp [classifyAud, audHasAudience, hm]

/-- Witness for C2: a single-audience token for the API identifier and an
array-audience token carrying only the client identifier. -/
theorem c2_classification_witness :
    ((classifyAud (.single "https://api") "https://api" = .access_token ↔
        audHasAudience (.single "https://api") "https://api") ∧
      (¬ audHasAudience (.single "https://api") "https://api" →
        classifyAud (.single "https://api") "https://api" = .id_token)) ∧
    ((classifyAud (.multi ["clientId"]) "https://api" = .access_token ↔
        audHasAudience (.multi ["clientId"]) "https://api") ∧
      (¬ audHasAudience (.multi ["clientId"]) "https://api" →
        classifyAud (.multi ["clientId"]) "https://api" = .id_token)) :=
  ⟨c2_classification (.single "https://api") "https://api" "clientId"
      (Or.inl rfl),
    c2_classification (.multi ["clientId"]) "https://api" "clientId"
      ⟨"clientId", by decide, Or.inr rfl⟩⟩

/-- C3: A verified token whose namespaced `token_verified_at` claim is
present but more than one hour older than the current time is not rejected:
the result is marked `verified`, the warning "Token verification is stale"
is appended to the request's warning list, and when the remaining gates and
validation pass, the success response carries exactly that warning list. -/
theorem c3_stale_warning (claims : TokenClaims) (now t : Nat)
    (hpresent : claims.tokenVerifiedAt = some t)
    (hstale : (now : Int) - (t : Int) > 3600000) :
    (verifyIdTokenClaims claims now).1.verified = true ∧
    "Token verification is stale" ∈ (verifyIdTokenClaims claims now).2 ∧
    ∀ (body : OrderBody) (nowMs : Nat) (nowIso : String)
      (store : String → UserMeta),
      requireEmailVerification (some (verifyIdTokenClaims claims now).1)
        = none →
      requireScopeCheck placeOrdersChars claims.scope = true →
      jsTruthyStr body.pizza = true → jsTruthyStr body.size = true →
      jsTruthyNum body.total = true →
      ∃ order, (postOrdersProfile claims body now nowMs nowIso store).res =
        .ok order (verifyIdTokenClaims claims now).2 := by
  refine ⟨by simp [verifyIdTokenClaims, hpresent], ?_, ?_⟩
  · simp [verifyIdTokenClaims, hpresent, hstale]
  · intro body nowMs nowIso store hgate hscope hp hs ht
    refine ⟨⟨natStr nowMs, body.pizza.getD "", body.size.getD "",
      body.total.getD 0, body.date.getD nowIso, claims.sub⟩, ?_⟩
    simp [postOrdersProfile, hgate, hscope, hp, hs, ht]

/-- Witness for C3: a token verified 2 hours before `now`, with trusted
flags and scope that pass every gate, and a complete body. -/
theorem c3_stale_warning_witness :
    (verifyIdTokenClaims
        { sub := "auth0|u1", email := some "u1@x.com", aud := .single "api",
          scope := some "place:orders".toList, rawEmailVerified := some true,
          tokenVerifiedAt := some 0, nsEmailVerified := some true,
          nsCanPlaceOrders := some true } 7200000).1.verified = true ∧
    "Token verification is stale" ∈ (verifyIdTokenClaims
        { sub := "auth0|u1", email := some "u1@x.com", aud := .single "api",
          scope := some "place:orders".toList, rawEmailVerified := some true,
          tokenVerifiedAt := some 0, nsEmailVerified := some true,
          nsCanPlaceOrders := some true } 7200000).2 ∧
    ∀ (body : OrderBody) (nowMs : Nat) (nowIso : String)
      (store : String → UserMeta),
      requireEmailVerification (some (verifyIdTokenClaims
        { sub := "auth0|u1", email := some "u1@x.com", aud := .single "api",
          scope := some "place:orders".toList, rawEmailVerified := some true,
          tokenVerifiedAt := some 0, nsEmailVerified := some true,
          nsCanPlaceOrders := some true } 7200000).1) = none →
      requireScopeCheck placeOrdersChars
        (some "place:orders".toList) = true →
      jsTruthyStr body.pizza = true → jsTruthyStr body.size = true →
      jsTruthyNum body.total = true →
      ∃ order, (postOrdersProfile
        { sub := "auth0|u1", email := some "u1@x.com", aud := .single "api",
          scope := some "place:orders".toList, rawEmailVerified := some true,
          tokenVerifiedAt := some 0, nsEmailVerified := some true,
          nsCanPlaceOrders := some true } body 7200000 nowMs nowIso store).res
        = .ok order (verifyIdTokenClaims
        { sub := "auth0|u1", email := some "u1@x.com", aud := .single "api",
          scope := some "place:orders".toList, rawEmailVerified := some true,
          tokenVerifiedAt := some 0, nsEmailVerified := some true,
          nsCanPlaceOrders := some true } 7200000).2 :=
  c3_stale_warning _ 7200000 0 rfl (by decide)

/-- C4: When the namespaced `token_verified_at` claim is absent, the
claims-trust middleware flags the fallback with `verified = false`, and both
`emailVerified` and `canPlaceOrders` equal the token's raw `email_verified`
claim — false when that claim is absent. -/
theorem c4_fallback_claims (claims : TokenClaims) (now : Nat)
    (habsent : claims.tokenVerifiedAt = none) :
    (verifyIdTokenClaims claims now).1.verified = false ∧
    (verifyIdTokenClaims claims now).1.emailVerified
      = some (claims.rawEmailVerified.getD false) ∧
    (verifyIdTokenClaims claims now).1.canPlaceOrders
      = some (claims.rawEmailVerified.getD false) ∧
    (claims.rawEmailVerified = none →
      (verifyIdTokenClaims claims now).1.emailVerified = some false ∧
      (verifyIdTokenClaims claims now).1.canPlaceOrders = some false) := by
  refine ⟨?_, ?_, ?_, fun hraw => ⟨?_, ?_⟩⟩ <;>
    simp [verifyIdTokenClaims, habsent] <;>
    simp [hraw]

/-- Witness for C4: an access-token-shaped claims set with no namespaced
claims and no raw `email_verified` claim. -/
theorem c4_fallback_claims_witness :
    (verifyIdTokenClaims
        { sub := "auth0|u2", email := none, aud := .single "api",
          scope := some "place:orders".toList, rawEmailVerified := none,
          tokenVerifiedAt := none, nsEmailVerified := none,
          nsCanPlaceOrders := none } 5000).1.verified = false ∧
    (verifyIdTokenClaims
        { sub := "auth0|u2", email := none, aud := .single "api",
          scope := some "place:orders".toList, rawEmailVerified := none,
          tokenVerifiedAt := none, nsEmailVerified := none,
          nsCanPlaceOrders := none } 5000).1.emailVerified
      = some ((none : Option Bool).getD false) ∧
    (verifyIdTokenClaims
        { sub := "auth0|u2", email := none, aud := .single "api",
          scope := some "place:orders".toList, rawEmailVerified := none,
          tokenVerifiedAt := none, nsEmailVerified := none,
          nsCanPlaceOrders := none } 5000).1.canPlaceOrders
      = some ((none : Option Bool).getD false) ∧
    ((none : Option Bool) = none →
      (verifyIdTokenClaims
        { sub := "auth0|u2", email := none, aud := .single "api",
          scope := some "place:orders".toList, rawEmailVerified := none,
          tokenVerifiedAt := none, nsEmailVerified := none,
          nsCanPlaceOrders := none } 5000).1.emailVerified = some false ∧
      (verifyIdTokenClaims
        { sub := "auth0|u2", email := none, aud := .single "api",
          scope := some "place:orders".toList, rawEmailVerified := none,
          tokenVerifiedAt := none, nsEmailVerified := none,
          nsCanPlaceOrders := none } 5000).1.canPlaceOrders = some false) :=
  c4_fallback_claims _ 5000 rfl

/-- C5: The scope gate passes exactly when the required permission occurs as
a substring of the scope value (JS `includes`); in particular the scope
string "replace:orders" — which does not list `place:orders` as a whole
space-separated permission — passes the gate, and a token with no scope
claim is rejected. -/
theorem c5_scope_is_substring_check :
    (∀ scope : Option (List Char),
      requireScopeCheck placeOrdersChars scope = true ↔
        ∃ s, scope = some s ∧ containsSub s placeOrdersChars = true) ∧
    (placeOrdersChars ∉ spaceTokens ("replace:orders".toList) ∧
      requireScopeCheck placeOrdersChars
        (some ("replace:orders".toList)) = true) ∧
    requireScopeCheck placeOrdersChars none = false := by
  refine ⟨?_, by decide, by decide⟩
  intro scope
  cases scope with
  | none => simp [requireScopeCheck]
  | some s =>
    cases s with
    | nil => simp [requireScopeCheck]; decide
    | cons c cs => simp [requireScopeCheck]

/-- Witness for C5: instantiating the substring characterization at an
ordinary space-separated scope string containing the whole permission. -/
theorem c5_scope_is_substring_check_witness :
    requireScopeCheck placeOrdersChars
      (some ("openid profile place:orders".toList)) = true :=
  (c5_scope_is_substring_check.1
      (some ("openid profile place:orders".toList))).mpr
    ⟨"openid profile place:orders".toList, rfl, by decide⟩

/-- C6: A POST /api/orders request whose body is missing `pizza`, `size` or
`total` — in both storage variants — yields the 400 response, leaves the
store unchanged, and performs no store operation at all (validation runs
before any store access). -/
theorem c6_missing_field_bad_request (claims : TokenClaims) (body : OrderBody)
    (now nowMs : Nat) (nowIso : String) (store : String → UserMeta)
    (tbl : List DynamoItem)
    (hgate : requireEmailVerification
      (some (verifyIdTokenClaims claims now).1) = none)
    (hscope : requireScopeCheck placeOrdersChars claims.scope = true)
    (hmissing : body.pizza = none ∨ body.size = none ∨ body.total = none) :
    postOrdersProfile claims body now nowMs nowIso store =
      { res := .badRequest, store := store, ops := [] } ∧
    postOrdersDynamo claims body now nowMs nowIso tbl =
      { res := .badRequest, table := tbl, ops := [] } := by
  rcases hmissing with h | h | h <;>
    constructor <;>
    simp [postOrdersProfile, postOrdersDynamo, hgate, hscope, h,
      jsTruthyStr, jsTruthyNum]

/-- Witness for C6: a fully authorized request with no `total` field. -/
theorem c6_missing_field_bad_request_witness :
    postOrdersProfile
      { sub := "auth0|u1", email := some "u1@x.com", aud := .single "api",
        scope := some "place:orders".toList, rawEmailVerified := some true,
        tokenVerifiedAt := some 1000, nsEmailVerified := some true,
        nsCanPlaceOrders := some true }
      { pizza := some "Margherita", size := some "medium",
        total := none, date := none }
      2000 3000 "iso" (fun _ => { orders := none, other := [] }) =
      { res := .badRequest,
        store := fun _ => { orders := none, other := [] }, ops := [] } ∧
    postOrdersDynamo
      { sub := "auth0|u1", email := some "u1@x.com", aud := .single "api",
        scope := some "place:orders".toList, rawEmailVerified := some true,
        tokenVerifiedAt := some 1000, nsEmailVerified := some true,
        nsCanPlaceOrders := some true }
      { pizza := some "Margherita", size := some "medium",
        total := none, date := none }
      2000 3000 "iso" [] =
      { res := .badRequest, table := [], ops := [] } :=
  c6_missing_field_bad_request _ _ _ _ _ _ _ (by decide) (by decide)
    (Or.inr (Or.inr rfl))

/-- C8: Under the profile-embedded strategy, every successful placement
writes back exactly the user's previous order list with the new order
appended at the end, preserves every other metadata field, and leaves every
other user's record untouched. -/
theorem c8_profile_append_frame (claims : TokenClaims) (body : OrderBody)
    (now nowMs : Nat) (nowIso : String) (store : String → UserMeta)
    (hgate : requireEmailVerification
      (some (verifyIdTokenClaims claims now).1) = none)
    (hscope : requireScopeCheck placeOrdersChars claims.scope = true)
    (hp : jsTruthyStr body.pizza = true) (hs : jsTruthyStr body.size = true)
    (ht : jsTruthyNum body.total = true) :
    ∃ order warns,
      (postOrdersProfile claims body now nowMs nowIso store).res
        = .ok order warns ∧
      ((postOrdersProfile claims body now nowMs nowIso store).store
          claims.sub).orders
        = some ((store claims.sub).orders.getD [] ++ [order]) ∧
      ((postOrdersProfile claims body now nowMs nowIso store).store
          claims.sub).other
        = (store claims.sub).other ∧
      ∀ u, u ≠ claims.sub →
        (postOrdersProfile claims body now nowMs nowIso store).store u
          = store u := by
  refine ⟨⟨natStr nowMs, body.pizza.getD "", body.size.getD "",
    body.total.getD 0, body.date.getD nowIso, claims.sub⟩,
    (verifyIdTokenClaims claims now).2, ?_, ?_, ?_, ?_⟩ <;>
    simp [postOrdersProfile, hgate, hscope, hp, hs, ht]
  intro u hu
  simp [hu]

/-- Witness for C8: a verified user with one existing order placing a second
one. -/
theorem c8_profile_append_frame_witness :
    ∃ order warns,
      (postOrdersProfile
        { sub := "auth0|u1", email := some "u1@x.com", aud := .single "api",
          scope := some "place:orders".toList, rawEmailVerified := some true,
          tokenVerifiedAt := some 1000, nsEmailVerified := some true,
          nsCanPlaceOrders := some true }
        { pizza := some "Margherita", size := some "medium",
          total := some 17, date := none }
        2000 3000 "iso"
        (fun _ => { orders := some [⟨"1", "Pepperoni", "large", 22, "d0", "auth0|u1"⟩],
                    other := [("loyalty", "gold")] })).res = .ok order warns ∧
      ((postOrdersProfile
        { sub := "auth0|u1", email := some "u1@x.com", aud := .single "api",
          scope := some "place:orders".toList, rawEmailVerified := some true,
          tokenVerifiedAt := some 1000, nsEmailVerified := some true,
          nsCanPlaceOrders := some true }
        { pizza := some "Margherita", size := some "medium",
          total := some 17, date := none }
        2000 3000 "iso"
        (fun _ => { orders := some [⟨"1", "Pepperoni", "large", 22, "d0", "auth0|u1"⟩],
                    other := [("loyalty", "gold")] })).store "auth0|u1").orders
        = some (((fun (_ : String) =>
            (⟨some [⟨"1", "Pepperoni", "large", 22, "d0", "auth0|u1"⟩],
              [("loyalty", "gold")]⟩ : UserMeta)) "auth0|u1").orders.getD []
          ++ [order]) ∧
      ((postOrdersProfile
        { sub := "auth0|u1", email := some "u1@x.com", aud := .single "api",
          scope := some "place:orders".toList, rawEmailVerified := some true,
          tokenVerifiedAt := some 1000, nsEmailVerified := some true,
          nsCanPlaceOrders := some true }
        { pizza := some "Margherita", size := some "medium",
          total := some 17, date := none }
        2000 3000 "iso"
        (fun _ => { orders := some [⟨"1", "Pepperoni", "large", 22, "d0", "auth0|u1"⟩],
                    other := [("loyalty", "gold")] })).store "auth0|u1").other
        = ((fun (_ : String) =>
            (⟨some [⟨"1", "Pepperoni", "large", 22, "d0", "auth0|u1"⟩],
              [("loyalty", "gold")]⟩ : UserMeta)) "auth0|u1").other ∧
      ∀ u, u ≠ "auth0|u1" →
        (postOrdersProfile
          { sub := "auth0|u1", email := some "u1@x.com", aud := .single "api",
            scope := some "place:orders".toList, rawEmailVerified := some true,
            tokenVerifiedAt := some 1000, nsEmailVerified := some true,
            nsCanPlaceOrders := some true }
          { pizza := some "Margherita", size := some "medium",
            total := some 17, date := none }
          2000 3000 "iso"
          (fun _ => { orders := some [⟨"1", "Pepperoni", "large", 22, "d0", "auth0|u1"⟩],
                      other := [("loyalty", "gold")] })).store u
          = (fun (_ : String) =>
              (⟨some [⟨"1", "Pepperoni", "large", 22, "d0", "auth0|u1"⟩],
                [("loyalty", "gold")]⟩ : UserMeta)) u :=
  c8_profile_append_frame _ _ _ _ _ _ (by decide) (by decide) (by decide)
    (by decide) (by decide)

/-- C10: Both profile builders take the first-order and last-order
timestamps from fixed array positions (the backend builder: last element and
index 0; the action builder: index 0 and last element), not by a min/max
scan; on the concrete non-monotonic order list with dates [5, 1, 10] the
reported `first_order` is not the minimum date and the reported `last_order`
is not the maximum date. -/
theorem c10_first_last_positional :
    (∀ (o : ProfileOrder) (os : List ProfileOrder) (iat : Option Nat),
      (generateCustomerProfileFromOrders (o :: os) iat).first_order
        = some (((o :: os).getLast (List.cons_ne_nil o os)).date) ∧
      (generateCustomerProfileFromOrders (o :: os) iat).last_order
        = some o.date) ∧
    (∀ (o : ProfileOrder) (os : List ProfileOrder) (createdAt : String),
      (generateCustomerProfile (o :: os) createdAt).first_order
        = some o.date ∧
      (generateCustomerProfile (o :: os) createdAt).last_order
        = some (((o :: os).getLast (List.cons_ne_nil o os)).date)) ∧
    (¬ List.Sorted (fun a b => a ≤ b)
        ([⟨"A", "s", 10, 5⟩, ⟨"B", "s", 20, 1⟩,
          (⟨"C", "s", 30, 10⟩ : ProfileOrder)].map (fun x => x.date)) ∧
      ¬ List.Sorted (fun a b => b ≤ a)
        ([⟨"A", "s", 10, 5⟩, ⟨"B", "s", 20, 1⟩,
          (⟨"C", "s", 30, 10⟩ : ProfileOrder)].map (fun x => x.date)) ∧
      (generateCustomerProfileFromOrders
          [⟨"A", "s", 10, 5⟩, ⟨"B", "s", 20, 1⟩, ⟨"C", "s", 30, 10⟩]
          none).first_order
        ≠ minDate [⟨"A", "s", 10, 5⟩, ⟨"B", "s", 20, 1⟩, ⟨"C", "s", 30, 10⟩] ∧
      (generateCustomerProfileFromOrders
          [⟨"A", "s", 10, 5⟩, ⟨"B", "s", 20, 1⟩, ⟨"C", "s", 30, 10⟩]
          none).last_order
        ≠ maxDate [⟨"A", "s", 10, 5⟩, ⟨"B", "s", 20, 1⟩, ⟨"C", "s", 30, 10⟩]) := by
  refine ⟨?_, ?_, ?_, ?_, by decide, by decide⟩
  · intro o os iat
    exact ⟨rfl, rfl⟩
  · intro o os createdAt
    exact ⟨rfl, rfl⟩
  · simp [List.Sorted]
  · simp [List.Sorted]

/-- Witness for C10: the positional facts instantiated on the concrete
unsorted list. -/
theorem c10_first_last_positional_witness :
    (generateCustomerProfileFromOrders
        [⟨"A", "s", 10, 5⟩, ⟨"B", "s", 20, 1⟩, ⟨"C", "s", 30, 10⟩]
        none).first_order
      = some ((([⟨"A", "s", 10, 5⟩, ⟨"B", "s", 20, 1⟩,
          (⟨"C", "s", 30, 10⟩ : ProfileOrder)]).getLast
        (List.cons_ne_nil _ _)).date) ∧
    (generateCustomerProfileFromOrders
        [⟨"A", "s", 10, 5⟩, ⟨"B", "s", 20, 1⟩, ⟨"C", "s", 30, 10⟩]
        none).last_order
      = some ((⟨"A", "s", 10, 5⟩ : ProfileOrder).date) :=
  c10_first_last_positional.1 ⟨"A", "s", 10, 5⟩
    [⟨"B", "s", 20, 1⟩, ⟨"C", "s", 30, 10⟩] none

/-- The fuel of `natDigitsAux` is irrelevant once it exceeds the input. -/
theorem natDigitsAux_fuel_eq :
    ∀ f g n : Nat, n < f → n < g → natDigitsAux f n = natDigitsAux g n := by
  intro f
  induction f with
  | zero => omega
  | succ f ih =>
    intro g n hf hg
    cases g with
    | zero => omega
    | succ g =>
      by_cases h10 : n < 10
      · simp [natDigitsAux, h10]
      · have hdiv : n / 10 < n := Nat.div_lt_self (by omega) (by omega)
        simp only [natDigitsAux, h10, if_false]
        rw [ih g (n / 10) (by omega) (by omega)]

/-- `natDigits` on a single-digit number. -/
theorem natDigits_lt10 (n : Nat) (h : n < 10) :
    natDigits n = [Nat.digitChar n] := by
  simp [natDigits, natDigitsAux, h]

/-- `natDigits` peels the last decimal digit for numbers with two or more
digits. -/
theorem natDigits_ge10 (n : Nat) (h : 10 ≤ n) :
    natDigits n = natDigits (n / 10) ++ [Nat.digitChar (n % 10)] := by
  have hdiv : n / 10 < n := Nat.div_lt_self (by omega) (by omega)
  have h2 : natDigits n
      = natDigitsAux n (n / 10) ++ [Nat.digitChar (n % 10)] := by
    simp only [natDigits, natDigitsAux, Nat.not_lt.mpr h, if_false]
  rw [h2, natDigitsAux_fuel_eq n (n / 10 + 1) (n / 10) (by omega) (by omega)]
  rfl

/-- A decimal representation is never empty. -/
theorem natDigits_ne_nil (n : Nat) : natDigits n ≠ [] := by
  by_cases h : n < 10
  · simp [natDigits_lt10 n h]
  · simp [natDigits_ge10 n (by omega)]

/-- `lexLt` is irreflexive. -/
theorem lexLt_self : ∀ xs : List Char, lexLt xs xs = false := by
  intro xs
  induction xs with
  | nil => rfl
  | cons a as ih => simp [lexLt, lt_irrefl, ih]

/-- `lexLt` is asymmetric. -/
theorem lexLt_asymm :
    ∀ xs ys : List Char, lexLt xs ys = true → lexLt ys xs = false := by
  intro xs
  induction xs with
  | nil =>
    intro ys h
    cases ys with
    | nil => simp [lexLt] at h
    | cons b bs => rfl
  | cons a as ih =>
    intro ys h
    cases ys with
    | nil => simp [lexLt] at h
    | cons b bs =>
      by_cases hab : a < b
      · have hba : ¬ b < a := lt_asymm hab
        simp [lexLt, hab, hba]
      · by_cases hba : b < a
        · simp [lexLt, hab, hba] at h
        · simp only [lexLt, hab, hba, if_false] at h
          simp [lexLt, hab, hba, ih bs h]

/-- `lexLt` ignores a common prefix. -/
theorem lexLt_append_left :
    ∀ p xs ys : List Char, lexLt (p ++ xs) (p ++ ys) = lexLt xs ys := by
  intro p
  induction p with
  | nil => intro xs ys; rfl
  | cons a as ih => intro xs ys; simp [lexLt, lt_irrefl, ih]

/-- Appending one character each to equal-length lists preserves a strict
`lexLt` relation. -/
theorem lexLt_append_last :
    ∀ xs ys : List Char, ∀ c d : Char, xs.length = ys.length →
      lexLt xs ys = true → lexLt (xs ++ [c]) (ys ++ [d]) = true := by
  intro xs
  induction xs with
  | nil =>
    intro ys c d hlen h
    cases ys with
    | nil => simp [lexLt] at h
    | cons b bs => simp at hlen
  | cons a as ih =>
    intro ys c d hlen h
    cases ys with
    | nil => simp at hlen
    | cons b bs =>
      by_cases hab : a < b
      · simp [lexLt, hab]
      · by_cases hba : b < a
        · simp [lexLt, hab, hba] at h
        · simp only [lexLt, hab, hba, if_false] at h
          simp only [List.cons_append, lexLt, hab, hba, if_false]
          exact ih bs c d (by simpa using hlen) h

/-- Appending a strictly smaller character to a common stem gives `lexLt`. -/
theorem lexLt_snoc_of_lt (xs : List Char) (c d : Char) (h : c < d) :
    lexLt (xs ++ [c]) (xs ++ [d]) = true := by
  rw [lexLt_append_left xs [c] [d]]
  simp [lexLt, h]

/-- Decimal digit characters are strictly monotone on 0–9. -/
theorem digitChar_lt_digitChar :
    ∀ a < 10, ∀ b < 10, a < b → Nat.digitChar a < Nat.digitChar b := by
  decide

/-- Equal-length decimal representations compare like the numbers they
represent. -/
theorem natDigits_lexLt :
    ∀ b a : Nat, a < b → (natDigits a).length = (natDigits b).length →
      lexLt (natDigits a) (natDigits b) = true := by
  intro b
  induction b using Nat.strong_induction_on with
  | _ b ih =>
    intro a hab hlen
    by_cases hb : b < 10
    · have ha : a < 10 := by omega
      rw [natDigits_lt10 a ha, natDigits_lt10 b hb]
      simp [lexLt, digitChar_lt_digitChar a ha b hb hab]
    · rw [natDigits_ge10 b (by omega)] at hlen ⊢
      by_cases ha : a < 10
      · rw [natDigits_lt10 a ha] at hlen
        have hne := natDigits_ne_nil (b / 10)
        simp at hlen
        exact absurd hlen hne
      · rw [natDigits_ge10 a (by omega)] at hlen ⊢
        have hlen' : (natDigits (a / 10)).length
            = (natDigits (b / 10)).length := by simpa using hlen
        have hdivle : a / 10 ≤ b / 10 := Nat.div_le_div_right (by omega)
        rcases Nat.lt_or_ge (a / 10) (b / 10) with hdlt | hdge
        · have hbdiv : b / 10 < b := Nat.div_lt_self (by omega) (by omega)
          exact lexLt_append_last _ _ _ _ hlen'
            (ih (b / 10) hbdiv (a / 10) hdlt hlen')
        · have hdeq : a / 10 = b / 10 := by omega
          have hmod : a % 10 < b % 10 := by
            have h1 := Nat.div_add_mod a 10
            have h2 := Nat.div_add_mod b 10
            omega
          rw [hdeq]
          exact lexLt_snoc_of_lt _ _ _
            (digitChar_lt_digitChar (a % 10) (Nat.mod_lt a (by omega))
              (b % 10) (Nat.mod_lt b (by omega)) hmod)

/-- Timestamp-derived sort keys with equal digit counts compare like the
timestamps. -/
theorem orderIdChars_lexLt (t1 t2 : Nat) (hlt : t1 < t2)
    (hlen : (natDigits t1).length = (natDigits t2).length) :
    lexLt (orderIdChars t1) (orderIdChars t2) = true := by
  unfold orderIdChars
  rw [lexLt_append_left]
  exact natDigits_lexLt t2 t1 hlt hlen

/-- C7 counterexample: with the strictly increasing timestamps 9 and 10
(whose decimal representations differ in length), placing two orders and
listing returns the EARLIER order first — the claim's "later-placed order
first" fails, because the sort key `order_<ms>` is compared as a string. -/
theorem c7_counterexample :
    (dynamoListOrders "u"
        (dynamoPut (mkDynamoItem "u" none 10
            { pizza := some "Margherita", size := some "medium",
              total := some 17, date := none } "d2")
          (dynamoPut (mkDynamoItem "u" none 9
            { pizza := some "Margherita", size := some "medium",
              total := some 17, date := none } "d1") []))).head?
      = some (fmtOrder (mkDynamoItem "u" none 9
          { pizza := some "Margherita", size := some "medium",
            total := some 17, date := none } "d1")) ∧
    fmtOrder (mkDynamoItem "u" none 9
        { pizza := some "Margherita", size := some "medium",
          total := some 17, date := none } "d1")
      ≠ fmtOrder (mkDynamoItem "u" none 10
        { pizza := some "Margherita", size := some "medium",
          total := some 17, date := none } "d2") := by
  constructor
  · decide
  · decide

/-- C7 (amended): under the table strategy, placing two orders with strictly
increasing timestamps whose decimal representations have equal length (true
of all contemporary epoch-millisecond clock values) and then listing the
user's orders returns the later-placed order first, in descending sort-key
order. -/
theorem c7_place_list_newest_first (u : String) (e : Option String)
    (t1 t2 : Nat) (b1 b2 : OrderBody) (iso1 iso2 : String)
    (hlt : t1 < t2)
    (hlen : (natDigits t1).length = (natDigits t2).length) :
    dynamoListOrders u
        (dynamoPut (mkDynamoItem u e t2 b2 iso2)
          (dynamoPut (mkDynamoItem u e t1 b1 iso1) [])) =
      [fmtOrder (mkDynamoItem u e t2 b2 iso2),
        fmtOrder (mkDynamoItem u e t1 b1 iso1)] := by
  have h12 : lexLt (orderIdChars t1) (orderIdChars t2) = true :=
    orderIdChars_lexLt t1 t2 hlt hlen
  have h21 : lexLt (orderIdChars t2) (orderIdChars t1) = false :=
    lexLt_asymm _ _ h12
  have hne : orderIdChars t1 ≠ orderIdChars t2 := by
    intro heq
    rw [heq, lexLt_self] at h12
    exact Bool.false_ne_true h12
  have hbeq : (orderIdChars t1 == orderIdChars t2) = false :=
    beq_eq_false_iff_ne.mpr hne
  simp [dynamoListOrders, dynamoQueryDesc, dynamoPut, mkDynamoItem,
    sortDesc, insertDesc, List.filter, hbeq, h21]

/-- Witness for C7 (amended) at the equal-length timestamps 1000 < 2000. -/
theorem c7_place_list_newest_first_witness :
    dynamoListOrders "u"
        (dynamoPut (mkDynamoItem "u" none 2000
            { pizza := some "Pepperoni", size := some "large",
              total := some 22, date := none } "d2")
          (dynamoPut (mkDynamoItem "u" none 1000
            { pizza := some "Margherita", size := some "medium",
              total := some 17, date := none } "d1") [])) =
      [fmtOrder (mkDynamoItem "u" none 2000
          { pizza := some "Pepperoni", size := some "large",
            total := some 22, date := none } "d2"),
        fmtOrder (mkDynamoItem "u" none 1000
          { pizza := some "Margherita", size := some "medium",
            total := some 17, date := none } "d1")] :=
  c7_place_list_newest_first "u" none 1000 2000 _ _ "d1" "d2"
    (by decide) (by decide)

/-- Appending one element adds one to the count of that element only. -/
theorem cnt_snoc (v a : String) :
    ∀ p : List String, cnt v (p ++ [a]) = cnt v p + (if a = v then 1 else 0) := by
  intro p
  induction p with
  | nil => simp [cnt]
  | cons x xs ih => simp [cnt, ih]; omega

/-- An occurrence position is an index into the list. -/
theorem occPos_lt_length :
    ∀ (p : List String) (v : String) (k i : Nat),
      occPos p v k = some i → i < p.length := by
  intro p
  induction p with
  | nil => intro v k i h; simp [occPos] at h
  | cons x xs ih =>
    intro v k i h
    by_cases hx : x = v
    · by_cases hk : k ≤ 1
      · simp [occPos, hx, hk] at h
        simp [← h]
      · simp [occPos, hx, hk] at h
        obtain ⟨j, hj, hji⟩ := h
        have := ih v (k - 1) j hj
        simp [← hji]
        omega
    · simp [occPos, hx] at h
      obtain ⟨j, hj, hji⟩ := h
      have := ih v k j hj
      simp [← hji]
      omega

/-- An occurrence position inside `p` is unchanged by appending on the
right. -/
theorem occPos_append :
    ∀ (p q : List String) (v : String) (k i : Nat),
      occPos p v k = some i → occPos (p ++ q) v k = some i := by
  intro p
  induction p with
  | nil => intro q v k i h; simp [occPos] at h
  | cons x xs ih =>
    intro q v k i h
    by_cases hx : x = v
    · by_cases hk : k ≤ 1
      · simp [occPos, hx, hk] at h ⊢
        exact h
      · simp [occPos, hx, hk] at h ⊢
        obtain ⟨j, hj, hji⟩ := h
        exact ⟨j, ih q v (k - 1) j hj, hji⟩
    · simp [occPos, hx] at h ⊢
      obtain ⟨j, hj, hji⟩ := h
      exact ⟨j, ih q v k j hj, hji⟩

/-- The `k`-th occurrence exists whenever the count is at least `k ≥ 1`. -/
theorem occPos_exists :
    ∀ (p : List String) (v : String) (k : Nat),
      1 ≤ k → k ≤ cnt v p → ∃ i, occPos p v k = some i := by
  intro p
  induction p with
  | nil => intro v k h1 h2; simp [cnt] at h2; omega
  | cons x xs ih =>
    intro v k h1 h2
    by_cases hx : x = v
    · by_cases hk : k ≤ 1
      · exact ⟨0, by simp [occPos, hx, hk]⟩
      · have h2' : k - 1 ≤ cnt v xs := by
          simp [cnt, hx] at h2
          omega
        obtain ⟨j, hj⟩ := ih v (k - 1) (by omega) h2'
        exact ⟨j + 1, by simp [occPos, hx, hk, hj]⟩
    · have h2' : k ≤ cnt v xs := by
        simp [cnt, hx] at h2
        omega
      obtain ⟨j, hj⟩ := ih v k h1 h2'
      exact ⟨j + 1, by simp [occPos, hx, hj]⟩

/-- The last position of `p ++ [v]` is where `v`'s count first reaches one
more than its count in `p`. -/
theorem occPos_snoc_self :
    ∀ (p : List String) (v : String),
      occPos (p ++ [v]) v (cnt v p + 1) = some p.length := by
  intro p
  induction p with
  | nil => intro v; simp [occPos, cnt]
  | cons x xs ih =>
    intro v
    by_cases hx : x = v
    · subst hx
      have hc : cnt x (x :: xs) = 1 + cnt x xs := by simp [cnt]
      simp only [List.cons_append, occPos, if_pos rfl, if_true, hc,
        List.append_eq]
      have hk2 : ¬ (1 + cnt x xs + 1 ≤ 1) := by omega
      rw [if_neg hk2]
      have h2 : 1 + cnt x xs + 1 - 1 = cnt x xs + 1 := by omega
      simp only [h2, ih x]
      simp
    · have hc : cnt v (x :: xs) = cnt v xs := by simp [cnt, hx]
      simp only [List.cons_append, occPos, hx, if_false, hc,
        List.append_eq, ih v]
      simp

/-- One loop iteration of `getMostFrequent` preserves the invariant. -/
theorem mfInv_step (p : List String) (st : MFState) (a : String)
    (ha : a ≠ "") (h : MFInv p st) : MFInv (p ++ [a]) (mfStep st a) := by
  obtain ⟨hfreq, hemp, hmax, hmost⟩ := h
  have hfa : st.freq a = cnt a p := hfreq a
  have hfreq' : ∀ v,
      (if v = a then st.freq a + 1 else st.freq v) = cnt v (p ++ [a]) := by
    intro v
    by_cases hv : v = a
    · subst hv
      simp [cnt_snoc, hfa]
    · simp [cnt_snoc, hv, Ne.symm hv, hfreq v]
  by_cases hrec : st.freq a + 1 > st.maxCount
  · have hstep : mfStep st a =
        ⟨fun x => if x = a then st.freq a + 1 else st.freq x,
          st.freq a + 1, some a⟩ := by
      simp [mfStep, ha, hrec]
    rw [hstep]
    simp only [MFInv]
    refine ⟨hfreq', by simp, ?_, ?_⟩
    · intro v
      by_cases hv : v = a
      · subst hv
        simp [cnt_snoc, hfa]
      · have := hmax v
        simp [cnt_snoc, Ne.symm hv]
        omega
    · intro _
      refine ⟨a, p.length, rfl, ?_, ?_, ?_⟩
      · simp [cnt_snoc, hfa]
      · rw [hfa]
        exact occPos_snoc_self p a
      · intro w j hw hj
        by_cases hwa : w = a
        · subst hwa
          rw [hfa, occPos_snoc_self p w] at hj
          simp at hj
          omega
        · rw [cnt_snoc, if_neg (Ne.symm hwa)] at hw
          have := hmax w
          omega
  · have hstep : mfStep st a =
        ⟨fun x => if x = a then st.freq a + 1 else st.freq x,
          st.maxCount, st.most⟩ := by
      simp [mfStep, ha, hrec]
    rw [hstep]
    simp only [MFInv]
    have hp : p ≠ [] := by
      intro hpnil
      subst hpnil
      have h0 : st.maxCount = 0 := (hemp rfl).1
      simp [cnt] at hfa
      omega
    obtain ⟨v, i, hm, hcv, hocc, hmin⟩ := hmost hp
    have hva : v ≠ a := by
      intro hveq
      subst hveq
      omega
    have hm1 : 1 ≤ st.maxCount := by
      cases p with
      | nil => exact absurd rfl hp
      | cons x xs =>
        have h1 : 1 ≤ cnt x (x :: xs) := by simp [cnt]
        have := hmax x
        omega
    refine ⟨hfreq', by simp, ?_, ?_⟩
    · intro w
      by_cases hw : w = a
      · subst hw
        rw [cnt_snoc, if_pos rfl]
        omega
      · rw [cnt_snoc, if_neg (Ne.symm hw)]
        have := hmax w
        omega
    · intro _
      refine ⟨v, i, hm, ?_,
        occPos_append p [a] v st.maxCount i hocc, ?_⟩
      · rw [cnt_snoc, if_neg (Ne.symm hva), Nat.add_zero]
        exact hcv
      · intro w j hw hj
        by_cases hwa : w = a
        · subst hwa
          rw [cnt_snoc, if_pos rfl] at hw
          have hsnoc := occPos_snoc_self p w
          rw [hw] at hsnoc
          rw [hsnoc] at hj
          have hi := occPos_lt_length p v st.maxCount i hocc
          simp at hj
          omega
        · rw [cnt_snoc, if_neg (Ne.symm hwa), Nat.add_zero] at hw
          obtain ⟨j0, hj0⟩ :=
            occPos_exists p w st.maxCount hm1 (le_of_eq hw.symm)
          rw [occPos_append p [a] w st.maxCount j0 hj0] at hj
          have := hmin w j0 hw hj0
          simp at hj
          omega

/-- The `getMostFrequent` fold satisfies the invariant on any prefix of
non-empty (truthy) items. -/
theorem mfInv_foldl (p : List String) (hall : ∀ x ∈ p, x ≠ "") :
    MFInv p (p.foldl mfStep ⟨fun _ => 0, 0, none⟩) := by
  induction p using List.reverseRecOn with
  | nil =>
    refine ⟨fun v => rfl, fun _ => ⟨rfl, rfl⟩, fun v => le_refl _,
      fun h => absurd rfl h⟩
  | append_singleton q a ih =>
    rw [List.foldl_append]
    have ha : a ≠ "" := hall a (by simp)
    have hq : ∀ x ∈ q, x ≠ "" := fun x hx => hall x (by simp [hx])
    simpa using mfInv_step q (q.foldl mfStep ⟨fun _ => 0, 0, none⟩) a ha (ih hq)

/-- C9: `getMostFrequent` returns `null` on the empty array and `"A"` on
`["A","B","A"]`; in general, on every non-empty array of truthy values it
returns a value of maximal frequency, and among the values attaining that
maximal count it returns the one whose maximal-count occurrence appears
first (first-seen-to-reach tie-break). -/
theorem c9_most_frequent_first_reach :
    getMostFrequent [] = none ∧
    getMostFrequent ["A", "B", "A"] = some "A" ∧
    ∀ arr : List String, arr ≠ [] → (∀ x ∈ arr, x ≠ "") →
      ∃ v i, getMostFrequent arr = some v ∧
        (∀ w, cnt w arr ≤ cnt v arr) ∧
        occPos arr v (cnt v arr) = some i ∧
        (∀ w j, cnt w arr = cnt v arr →
          occPos arr w (cnt v arr) = some j → i ≤ j) := by
  refine ⟨rfl, by decide, ?_⟩
  intro arr hne hall
  obtain ⟨hfreq, hemp, hmax, hmost⟩ := mfInv_foldl arr hall
  obtain ⟨v, i, hm, hcv, hocc, hmin⟩ := hmost hne
  have hempty : arr.isEmpty = false := by
    cases arr with
    | nil => exact absurd rfl hne
    | cons x xs => rfl
  refine ⟨v, i, ?_, ?_, ?_, ?_⟩
  · rw [getMostFrequent, hempty]
    simp [hm]
  · intro w
    rw [hcv]
    exact hmax w
  · rw [hcv]
    exact hocc
  · intro w j hw hj
    rw [hcv] at hw hj
    exact hmin w j hw hj

/-- Witness for C9: the general first-to-reach property instantiated at the
concrete array `["A","B","A"]`. -/
theorem c9_most_frequent_first_reach_witness :
    ∃ v i, getMostFrequent ["A", "B", "A"] = some v ∧
      (∀ w, cnt w ["A", "B", "A"] ≤ cnt v ["A", "B", "A"]) ∧
      occPos ["A", "B", "A"] v (cnt v ["A", "B", "A"]) = some i ∧
      (∀ w j, cnt w ["A", "B", "A"] = cnt v ["A", "B", "A"] →
        occPos ["A", "B", "A"] w (cnt v ["A", "B", "A"]) = some j → i ≤ j) :=
  c9_most_frequent_first_reach.2.2 ["A", "B", "A"] (by decide) (by decide)
